import Mathlib

/-!
Shallow embedding of the read-only APFS access core, from fs/apfs/super.c and
fs/apfs/extents.c.  Disk blocks are lists of byte values; u64 arithmetic is
Nat arithmetic reduced modulo 2^64 where the C code can wrap; fallible
operations return `Except Int` carrying the (positive) errno value.
Collaborators that live outside the two source files (the block reader, the
B-tree engine of btree.c/table.c, the kernel option tokenizer) are modelled
from the spec, and are marked as such in their doc comments.
-/

set_option maxRecDepth 100000

namespace Apfs

/-- Equality of fallible results is decidable, so concrete runs of the
embedded operations can be checked by evaluation. -/
instance {ε α : Type _} [DecidableEq ε] [DecidableEq α] : DecidableEq (Except ε α) := fun a b =>
  match a, b with
  | .error e, .error f =>
    if h : e = f then .isTrue (by rw [h]) else .isFalse (by intro hh; cases hh; exact h rfl)
  | .ok x, .ok y =>
    if h : x = y then .isTrue (by rw [h]) else .isFalse (by intro hh; cases hh; exact h rfl)
  | .error _, .ok _ => .isFalse (by intro hh; cases hh)
  | .ok _, .error _ => .isFalse (by intro hh; cases hh)

/-- The u64 modulus. -/
def U64 : Nat := 2 ^ 64

/-- Errno value for -EINVAL. -/
def EINVAL : Int := 22

/-- Errno value for -ENOMEM. -/
def ENOMEM : Int := 12

/-- Errno value for -EIO. -/
def EIO' : Int := 5

/-- Errno value for -EROFS. -/
def EROFS : Int := 30

/-- Errno value for -EFSCORRUPTED (EUCLEAN). -/
def EFSCORRUPTED : Int := 117

/-- Little-endian 32-bit load at byte offset `off` of a block, as `le32_to_cpu`
on a field of the raw buffer; bytes beyond the end of the list read as 0. -/
def le32_off (bytes : List Nat) (off : Nat) : Nat :=
  bytes.getD off 0 + 256 * bytes.getD (off + 1) 0 +
    65536 * bytes.getD (off + 2) 0 + 16777216 * bytes.getD (off + 3) 0

/-- Little-endian 64-bit load at byte offset `off`, as `le64_to_cpu`. -/
def le64_at (bytes : List Nat) (off : Nat) : Nat :=
  le32_off bytes off + 4294967296 * le32_off bytes (off + 4)

/-- The word stream of apfs_fletcher64: the buffer read as aligned
little-endian 32-bit words, `buff[i]` for `i < len / 4` (ragged tail unread). -/
def toWords : List Nat → List Nat
  | b0 :: b1 :: b2 :: b3 :: rest =>
      (b0 + 256 * b1 + 65536 * b2 + 16777216 * b3) :: toWords rest
  | _ => []

/-- The accumulation loop of apfs_fletcher64: `sum1 += word; sum2 += sum1`,
both sums being u64 variables. -/
def fletcher_loop : List Nat → Nat × Nat → Nat × Nat
  | [], s => s
  | w :: ws, s => fletcher_loop ws ((s.1 + w) % U64, (s.2 + (s.1 + w) % U64) % U64)

/-- apfs_fletcher64 from super.c: accumulate the word sums, then
`c1 = 0xFFFFFFFF - do_div(sum1 + sum2, 0xFFFFFFFF)` and
`c2 = 0xFFFFFFFF - do_div(sum1 + c1, 0xFFFFFFFF)` (do_div yielding the
remainder), returning `(c2 << 32) | c1`. -/
def apfs_fletcher64 (bytes : List Nat) : Nat :=
  let s := fletcher_loop (toWords bytes) (0, 0)
  let c1 := 0xFFFFFFFF - (s.1 + s.2) % U64 % 0xFFFFFFFF
  let c2 := 0xFFFFFFFF - (s.1 + c1) % U64 % 0xFFFFFFFF
  (c2 <<< 32) ||| c1

/-- Modelled from the spec: the reference Fletcher-64 accumulation,
`sum1 += word` and `sum2 += sum1` without modular reduction. -/
def fletcher_sums : List Nat → Nat × Nat → Nat × Nat
  | [], s => s
  | w :: ws, s => fletcher_sums ws (s.1 + w, s.2 + (s.1 + w))

/-- Modelled from the spec: the reference Fletcher-64 checksum, with
`c1 = 0xFFFFFFFF - ((sum1 + sum2) mod 0xFFFFFFFF)`,
`c2 = 0xFFFFFFFF - ((sum1 + c1) mod 0xFFFFFFFF)`, result `(c2 << 32) | c1`. -/
def fletcher64_spec (bytes : List Nat) : Nat :=
  let s := fletcher_sums (toWords bytes) (0, 0)
  let c1 := 0xFFFFFFFF - (s.1 + s.2) % 0xFFFFFFFF
  let c2 := 0xFFFFFFFF - (s.1 + c1) % 0xFFFFFFFF
  (c2 <<< 32) ||| c1

/-- Size of the checksum field at the head of every object header. -/
def APFS_MAX_CKSUM_SIZE : Nat := 8

/-- apfs_obj_verify_csum from super.c: the stored 64-bit header checksum equals
apfs_fletcher64 over bytes [8, blocksize) of the object's block. -/
def apfs_obj_verify_csum (blocksize : Nat) (block : List Nat) : Bool :=
  le64_at block 0 ==
    apfs_fletcher64 ((block.drop APFS_MAX_CKSUM_SIZE).take (blocksize - APFS_MAX_CKSUM_SIZE))

/-- Container superblock magic NXSB. -/
def APFS_NX_MAGIC : Nat := 0x4253584E

/-- Block number of the container superblock. -/
def APFS_NX_BLOCK_NUM : Nat := 0

/-- Conservative block size used for the first read of block 0. -/
def APFS_NX_DEFAULT_BLOCK_SIZE : Nat := 4096

/-- The external block reader: `read_block` takes the currently set block size
and a block number, returning the block's bytes, or none on I/O failure
(sb_bread returning NULL). -/
structure Disk where
  read_block : Nat → Nat → Option (List Nat)

/-- Modelled from the spec: the host interface `set_block_size(n) -> bool`
(sb_set_blocksize), succeeding iff n is a supported power of two. -/
def sb_set_blocksize_ok (n : Nat) : Bool :=
  decide (512 ≤ n) && decide (n ≤ 65536) && (List.range 17).any (fun k => n == 2 ^ k)

/-- Outcome of apfs_map_main_super: the established block size and the mapped
container superblock buffer. -/
structure MainSuperState where
  blocksize : Nat
  msb : List Nat
deriving DecidableEq

/-- apfs_map_main_super from super.c: set the default block size, read block 0,
re-read with the declared nx_block_size when it differs, then check the NXSB
magic (at byte offset 32 of the superblock, per the spec's data model, with
nx_block_size at offset 36) and the header checksum.  Every failure in this
function reports -EINVAL. -/
def apfs_map_main_super (d : Disk) : Except Int MainSuperState :=
  if !sb_set_blocksize_ok APFS_NX_DEFAULT_BLOCK_SIZE then .error EINVAL else
  match d.read_block APFS_NX_DEFAULT_BLOCK_SIZE APFS_NX_BLOCK_NUM with
  | none => .error EINVAL
  | some bh0 =>
    let blocksize := le32_off bh0 36
    let reread : Except Int (List Nat) :=
      if blocksize != APFS_NX_DEFAULT_BLOCK_SIZE then
        if !sb_set_blocksize_ok blocksize then .error EINVAL else
        match d.read_block blocksize APFS_NX_BLOCK_NUM with
        | none => .error EINVAL
        | some bh => .ok bh
      else .ok bh0
    match reread with
    | .error e => .error e
    | .ok msb =>
      if le32_off msb 32 != APFS_NX_MAGIC then .error EINVAL
      else if !apfs_obj_verify_csum blocksize msb then .error EINVAL
      else .ok ⟨blocksize, msb⟩

/-- Low 56 bits of len_and_flags hold the extent's byte length. -/
def APFS_FILE_EXTENT_LEN_MASK : Nat := 0x00ffffffffffffff

/-- The in-memory extent record: struct apfs_file_extent. -/
structure apfs_file_extent where
  logical_addr : Nat
  phys_block_num : Nat
  len : Nat
deriving DecidableEq

/-- A leaf record produced by a catalog B-tree query, already decoded: the
lengths the query reports for key and value, and the little-endian fields of
apfs_file_extent_key and apfs_file_extent_val read from the leaf buffer. -/
structure CatRecord where
  key_len : Nat
  val_len : Nat
  logical_addr : Nat
  len_and_flags : Nat
  phys_block_num : Nat
deriving DecidableEq

/-- sizeof(struct apfs_file_extent_val): len_and_flags, phys_block_num and
crypto_id, three u64 fields. -/
def sizeof_file_extent_val : Nat := 24

/-- sizeof(struct apfs_file_extent_key): the key header and logical_addr,
two u64 fields. -/
def sizeof_file_extent_key : Nat := 16

/-- The parts of the mounted state that apfs_extent_read consumes: the block
size exponent (inode->i_blkbits, with s_blocksize = 2^blkbits), the inode's
extent id and cached extent, and the catalog B-tree query.  The query
function (apfs_btree_query of btree.c, not part of the analysed sources) is
modelled from the spec as a function of the extent id and queried address. -/
structure ExtState where
  blkbits : Nat
  extent_id : Nat
  cached_extent : apfs_file_extent
  catalog : Nat → Nat → Except Int CatRecord

/-- apfs_extent_read from extents.c: serve `iblock` from the cached extent
when it covers `iblock << blkbits`, otherwise query the catalog, reject
records with unexpected key/value sizes or a length that is not a multiple of
the block size, and install the decoded extent as the new cache.  Returns the
result and the cache contents after the call (allocation failures, which can
touch nothing, are not modelled). -/
def apfs_extent_read (st : ExtState) (iblock : Nat) :
    Except Int apfs_file_extent × apfs_file_extent :=
  let iaddr := (iblock <<< st.blkbits) % U64
  let cache := st.cached_extent
  if cache.logical_addr ≤ iaddr ∧ iaddr < (cache.logical_addr + cache.len) % U64 then
    (.ok cache, cache)
  else
    match st.catalog st.extent_id iaddr with
    | .error e => (.error e, cache)
    | .ok q =>
      if q.val_len != sizeof_file_extent_val || q.key_len != sizeof_file_extent_key then
        (.error EFSCORRUPTED, cache)
      else
        let ext_len := q.len_and_flags &&& APFS_FILE_EXTENT_LEN_MASK
        if ext_len &&& (2 ^ st.blkbits - 1) != 0 then
          (.error EFSCORRUPTED, cache)
        else
          let e : apfs_file_extent :=
            { logical_addr := q.logical_addr, phys_block_num := q.phys_block_num
            , len := ext_len }
          (.ok e, e)

/-- The observable outcome of apfs_get_block on the buffer head: the mapped
length left in b_size, and the physical block passed to map_bh, if any. -/
structure buffer_head where
  b_size : Nat
  mapped : Option Nat
deriving DecidableEq

/-- apfs_get_block from extents.c: resolve the covering extent, compute the
block offset within it, clip the requested size to the extent boundary, and
map the physical block unless the extent is a hole (phys_block_num 0).  The
`create` argument is accepted and never read, exactly as in the C code.
Returns the result and the cache contents after the call. -/
def apfs_get_block (st : ExtState) (iblock : Nat) (b_size : Nat) (create : Bool) :
    Except Int buffer_head × apfs_file_extent :=
  match apfs_extent_read st iblock with
  | (.error e, c) => (.error e, c)
  | (.ok ext, c) =>
    let blk_off := (iblock % U64 + U64 - (ext.logical_addr >>> st.blkbits) % U64) % U64
    let map_len := (ext.len % U64 + U64 - (blk_off <<< st.blkbits) % U64) % U64
    let bsz := if map_len < b_size then map_len else b_size
    if ext.phys_block_num != 0 then
      (.ok { b_size := bsz, mapped := some ((ext.phys_block_num + blk_off) % U64) }, c)
    else
      (.ok { b_size := bsz, mapped := none }, c)

/-- The cache-hit test of apfs_extent_read: the cached extent covers the byte
address `iaddr`, under the u64 arithmetic the C code uses. -/
def cache_covers (c : apfs_file_extent) (iaddr : Nat) : Prop :=
  c.logical_addr ≤ iaddr ∧ iaddr < (c.logical_addr + c.len) % U64

/-- Modelled from the spec: the acceptance condition of a catalog file-extent
B-tree query.  A record is returned only when its key matches the queried
extent id and `logical_addr <= query < logical_addr + value.len`. -/
def BtreeCatSpec (cat : Nat → Nat → Except Int CatRecord) : Prop :=
  ∀ eid iaddr q, cat eid iaddr = .ok q →
    q.logical_addr ≤ iaddr ∧
      iaddr < q.logical_addr + (q.len_and_flags &&& APFS_FILE_EXTENT_LEN_MASK)

/-- Modelled from the spec: a file extent maps a logical byte interval
`[logical_addr, logical_addr + len)` of u64 addresses, so the interval's end
stays below 2^64 for any record the catalog returns. -/
def CatRangesBounded (cat : Nat → Nat → Except Int CatRecord) : Prop :=
  ∀ eid iaddr q, cat eid iaddr = .ok q →
    q.logical_addr + (q.len_and_flags &&& APFS_FILE_EXTENT_LEN_MASK) < U64

/-- One entry of the container omap node as apfs_count_used_blocks consumes
it: the length that apfs_table_locate_data reports for its value, and the u64
at byte offset 8 of that value (the volume superblock's block number). -/
structure OmapEntry where
  data_len : Nat
  block : Nat
deriving DecidableEq

/-- The parts of the mounted state that statfs consumes.  The container omap
node and its table are read through table.c, which is not part of the
analysed sources, so they are modelled from the spec: `omap_table` is the
outcome of reading the container omap and its tree node (an error when either
read fails), and `vol_alloc` maps a block number to the fs_alloc_count of the
volume superblock stored there, or none when that block cannot be read. -/
structure SbInfo where
  nx_block_count : Nat
  omap_table : Except Int (List OmapEntry)
  vol_alloc : Nat → Option Nat
  num_files : Nat
  num_directories : Nat
  num_symlinks : Nat
  num_other_fsobjects : Nat
  vol_uuid : List Nat
  blocksize : Nat

/-- The per-record loop of apfs_count_used_blocks: an entry whose value length
is not 16 aborts with -EIO, a failed volume superblock read aborts with -EIO,
otherwise fs_alloc_count is accumulated into the u64 running count. -/
def count_go (vol_alloc : Nat → Option Nat) : List OmapEntry → Nat → Except Int Nat
  | [], c => .ok c
  | e :: es, c =>
    if e.data_len != 16 then .error EIO'
    else match vol_alloc e.block with
      | none => .error EIO'
      | some a => count_go vol_alloc es ((c + a) % U64)

/-- apfs_count_used_blocks from super.c: load the container omap node and sum
fs_alloc_count over the volume superblock referenced by each of its entries. -/
def apfs_count_used_blocks (st : SbInfo) : Except Int Nat :=
  match st.omap_table with
  | .error e => .error e
  | .ok entries => count_go st.vol_alloc entries 0

/-- Modelled from the spec: the filesystem magic reported in f_type; its
numeric value comes from the missing header and is irrelevant here. -/
def APFS_SUPER_MAGIC : Nat := 0x42535041

/-- The kstatfs fields apfs_statfs fills in. -/
structure Kstatfs where
  f_type : Nat
  f_bsize : Nat
  f_blocks : Nat
  f_bfree : Nat
  f_bavail : Nat
  f_files : Nat
  f_namelen : Nat
  f_fsid0 : Nat
  f_fsid1 : Nat
deriving DecidableEq

/-- apfs_statfs from super.c: total blocks from nx_block_count, free blocks by
u64 subtraction of the counted used blocks, f_bavail copied from f_bfree, the
file count summed over the mounted volume's four object counters, name_max
255, and the fsid from the XOR of the two u64 halves of the volume uuid. -/
def apfs_statfs (st : SbInfo) : Except Int Kstatfs :=
  let f_blocks := st.nx_block_count % U64
  match apfs_count_used_blocks st with
  | .error e => .error e
  | .ok used =>
    let f_bfree := (f_blocks + U64 - used) % U64
    let fsid := le64_at st.vol_uuid 0 ^^^ le64_at st.vol_uuid 8
    .ok { f_type := APFS_SUPER_MAGIC
        , f_bsize := st.blocksize
        , f_blocks := f_blocks
        , f_bfree := f_bfree
        , f_bavail := f_bfree
        , f_files := (st.num_files + st.num_directories + st.num_symlinks +
                        st.num_other_fsobjects) % U64
        , f_namelen := 255
        , f_fsid0 := fsid &&& 0xFFFFFFFF
        , f_fsid1 := (fsid >>> 32) &&& 0xFFFFFFFF }

/-- Flag recording that a uid= option overrides every inode's owner.  The
numeric bit comes from the missing header; modelled from the spec. -/
def APFS_UID_OVERRIDE : Nat := 1

/-- Flag recording that a gid= option overrides every inode's group.  The
numeric bit comes from the missing header; modelled from the spec. -/
def APFS_GID_OVERRIDE : Nat := 2

/-- Token classification of one option segment, as match_token yields it. -/
inductive OptTok where
  | uid (v : Nat)
  | gid (v : Nat)
  | vol (v : Nat)
  | err
deriving DecidableEq

/-- Decimal value of a digit string, as match_int reads a %u capture. -/
def digitsToNat (cs : List Char) : Nat :=
  cs.foldl (fun a c => a * 10 + (c.toNat - 48)) 0

/-- Modelled from the spec: a %u capture matches a nonempty run of digits that
exhausts the segment; anything else makes the pattern fail. -/
def u32_capture (mk : Nat → OptTok) (rest : List Char) : OptTok :=
  if rest ≠ [] ∧ rest.all Char.isDigit then mk (digitsToNat rest) else .err

/-- Modelled from the spec: the kernel match_token over the option table
uid=%u, gid=%u, vol=%u; a segment matching no pattern classifies as err. -/
def match_token (p : List Char) : OptTok :=
  match p with
  | 'u' :: 'i' :: 'd' :: '=' :: rest => u32_capture .uid rest
  | 'g' :: 'i' :: 'd' :: '=' :: rest => u32_capture .gid rest
  | 'v' :: 'o' :: 'l' :: '=' :: rest => u32_capture .vol rest
  | _ => .err

/-- strsep on commas: the segments of the option string, keeping empties. -/
def split_commas : List Char → List (List Char)
  | [] => [[]]
  | c :: rest =>
    if c = ',' then [] :: split_commas rest
    else match split_commas rest with
      | [] => [[c]]
      | seg :: segs => (c :: seg) :: segs

/-- The sb_info fields parse_options sets. -/
structure ParseState where
  s_vol_nr : Nat
  s_uid : Nat
  s_gid : Nat
  s_flags : Nat
deriving DecidableEq

/-- Modelled from the spec: uid_valid/gid_valid fail exactly on the reserved
invalid id, the all-ones u32. -/
def id_invalid (v : Nat) : Bool := v &&& 0xFFFFFFFF == 0xFFFFFFFF

/-- The option loop of parse_options: empty segments are skipped, uid=/gid=
set the override flag after a validity check, vol= sets the volume slot, and
an unmatched segment fails with -EINVAL. -/
def parse_opts_list : List (List Char) → ParseState → Except Int ParseState
  | [], st => .ok st
  | p :: rest, st =>
    if p = [] then parse_opts_list rest st
    else match match_token p with
      | .uid v =>
        if id_invalid v then .error EINVAL
        else parse_opts_list rest
          { st with s_uid := v, s_flags := st.s_flags ||| APFS_UID_OVERRIDE }
      | .gid v =>
        if id_invalid v then .error EINVAL
        else parse_opts_list rest
          { st with s_gid := v, s_flags := st.s_flags ||| APFS_GID_OVERRIDE }
      | .vol v => parse_opts_list rest { st with s_vol_nr := v }
      | .err => .error EINVAL

/-- parse_options from super.c: defaults s_vol_nr = 0 and s_flags = 0, a NULL
option string parses to the defaults, otherwise the comma-separated segments
are processed in order. -/
def parse_options (options : Option (List Char)) : Except Int ParseState :=
  let st0 : ParseState := { s_vol_nr := 0, s_uid := 0, s_gid := 0, s_flags := 0 }
  match options with
  | none => .ok st0
  | some s => parse_opts_list (split_commas s) st0

/-! Concrete mounts, disks and inode states used to witness or refute the
individual claims. -/

/-- A byte buffer used to evaluate the checksum theorems concretely. -/
def c4_bytes : List Nat := List.replicate 16 7

/-- An inode state whose cached extent covers logical block 1 with a real
physical run, used to evaluate apfs_get_block with the create flag set. -/
def c1_state : ExtState :=
  { blkbits := 12, extent_id := 10, cached_extent := ⟨0, 500, 12288⟩
  , catalog := fun _ _ => .error 2 }

/-- An inode state with an empty cache whose catalog answers every query with
a record of length zero. -/
def c2_state : ExtState :=
  { blkbits := 12, extent_id := 5, cached_extent := ⟨0, 0, 0⟩
  , catalog := fun _ _ => .ok ⟨16, 24, 0, 0, 123⟩ }

/-- An inode state whose catalog answers addresses below 8192 with one
extent record of length 8192 at logical address 0. -/
def c5_state : ExtState :=
  { blkbits := 12, extent_id := 7, cached_extent := ⟨0, 0, 0⟩
  , catalog := fun _ a => if a < 8192 then .ok ⟨16, 24, 0, 8192, 77⟩ else .error 2 }

/-- An inode state whose catalog answers addresses below 4096 with one
extent record of length 4096 at logical address 0. -/
def c8_state : ExtState :=
  { blkbits := 12, extent_id := 3, cached_extent := ⟨0, 0, 0⟩
  , catalog := fun _ a => if a < 4096 then .ok ⟨16, 24, 0, 4096, 9⟩ else .error 2 }

/-- An inode state whose cache misses block 0 and whose catalog always
fails, so every resolution errors out. -/
def c10_state : ExtState :=
  { blkbits := 12, extent_id := 1, cached_extent := ⟨4096, 7, 8192⟩
  , catalog := fun _ _ => .error 2 }

/-- A 4096-byte container-superblock image whose magic NXSB (offset 32) and
declared block size 4096 (offset 36) are valid but whose stored checksum
(first eight bytes, value 1) does not match the Fletcher-64 of its payload:
a one-byte tamper of the checksum field. -/
def c3_block : List Nat :=
  [1, 0, 0, 0, 0, 0, 0, 0] ++ List.replicate 24 0 ++
    [0x4E, 0x58, 0x53, 0x42] ++ [0, 0x10, 0, 0] ++ List.replicate 4056 0

/-- A disk holding only the tampered container superblock at block 0. -/
def c3_disk : Disk :=
  ⟨fun _ bno => if bno = APFS_NX_BLOCK_NUM then some c3_block else none⟩

/-- A mounted container with two volumes of 1000 and 2500 allocated blocks
out of 10000, matching scenario 6 of the spec. -/
def c6_state : SbInfo :=
  { nx_block_count := 10000
  , omap_table := .ok [⟨16, 100⟩, ⟨16, 200⟩]
  , vol_alloc := fun b => if b = 100 then some 1000 else if b = 200 then some 2500 else none
  , num_files := 3, num_directories := 4, num_symlinks := 5, num_other_fsobjects := 6
  , vol_uuid := List.replicate 8 0x11 ++ List.replicate 8 0x22
  , blocksize := 4096 }

/-- A mounted container whose single omap entry carries a 12-byte value
instead of the expected 16 bytes. -/
def c7_state : SbInfo :=
  { nx_block_count := 10000, omap_table := .ok [⟨12, 100⟩]
  , vol_alloc := fun _ => some 7
  , num_files := 0, num_directories := 0, num_symlinks := 0, num_other_fsobjects := 0
  , vol_uuid := List.replicate 16 0, blocksize := 4096 }

/-- An option string with an unparsable volume number. -/
def c9_chars : List Char := ['v', 'o', 'l', '=', 'a', 'b', 'c']

end Apfs

namespace Apfs

/-! Helper lemmas about the Fletcher-64 accumulation. -/

/-- The first reference sum is the plain word sum. -/
theorem fletcher_sums_fst (ws : List Nat) : ∀ a b, (fletcher_sums ws (a, b)).1 = a + ws.sum := by
  induction ws with
  | nil => intro a b; simp [fletcher_sums]
  | cons w t ih =>
    intro a b
    simp only [fletcher_sums]
    rw [ih]
    simp [List.sum_cons]
    omega

/-- The second reference sum only grows along the accumulation. -/
theorem fletcher_sums_snd_mono (ws : List Nat) : ∀ a b, b ≤ (fletcher_sums ws (a, b)).2 := by
  induction ws with
  | nil => intro a b; simp [fletcher_sums]
  | cons w t ih =>
    intro a b
    simp only [fletcher_sums]
    exact le_trans (Nat.le_add_right b (a + w)) (ih (a + w) (b + (a + w)))

/-- Upper bound for the second reference sum: every step adds at most the
final value of the first sum. -/
theorem fletcher_sums_snd_le (ws : List Nat) :
    ∀ a b, (fletcher_sums ws (a, b)).2 ≤ b + ws.length * (a + ws.sum) := by
  induction ws with
  | nil => intro a b; simp [fletcher_sums]
  | cons w t ih =>
    intro a b
    simp only [fletcher_sums]
    calc (fletcher_sums t ((a, b).1 + w, (a, b).2 + ((a, b).1 + w))).2
        ≤ (b + (a + w)) + t.length * ((a + w) + t.sum) := ih (a + w) (b + (a + w))
      _ ≤ (b + ((a + w) + t.sum)) + t.length * ((a + w) + t.sum) :=
          Nat.add_le_add_right (Nat.add_le_add_left (Nat.le_add_right (a + w) t.sum) b) _
      _ = b + (w :: t).length * (a + (w :: t).sum) := by
          simp [List.sum_cons, List.length_cons]
          ring

/-- When the exact reference sums stay below 2^64, the u64 loop of the C code
computes exactly them: no reduction ever fires. -/
theorem fletcher_loop_eq (ws : List Nat) :
    ∀ a b, (fletcher_sums ws (a, b)).1 < U64 → (fletcher_sums ws (a, b)).2 < U64 →
    fletcher_loop ws (a, b) = fletcher_sums ws (a, b) := by
  induction ws with
  | nil => intro a b _ _; rfl
  | cons w t ih =>
    intro a b h1 h2
    simp only [fletcher_sums] at h1 h2
    simp only [fletcher_loop, fletcher_sums]
    have hfst : a + w ≤ (fletcher_sums t (a + w, b + (a + w))).1 := by
      rw [fletcher_sums_fst]; omega
    have hsnd : b + (a + w) ≤ (fletcher_sums t (a + w, b + (a + w))).2 :=
      fletcher_sums_snd_mono t (a + w) (b + (a + w))
    have e1 : (a + w) % U64 = a + w := Nat.mod_eq_of_lt (lt_of_le_of_lt hfst h1)
    rw [e1]
    have e2 : (b + (a + w)) % U64 = b + (a + w) := Nat.mod_eq_of_lt (lt_of_le_of_lt hsnd h2)
    rw [e2]
    exact ih (a + w) (b + (a + w)) h1 h2

/-- Words decoded from in-range bytes are u32 values. -/
theorem toWords_lt : ∀ (bytes : List Nat), (∀ b ∈ bytes, b < 256) →
    ∀ w ∈ toWords bytes, w < 2 ^ 32
  | [], _, w, hw => by simp [toWords] at hw
  | [_], _, w, hw => by simp [toWords] at hw
  | [_, _], _, w, hw => by simp [toWords] at hw
  | [_, _, _], _, w, hw => by simp [toWords] at hw
  | b0 :: b1 :: b2 :: b3 :: rest, h, w, hw => by
      simp only [toWords, List.mem_cons] at hw
      rcases hw with h0 | hmem
      · have h0b := h b0 (by simp)
        have h1b := h b1 (by simp)
        have h2b := h b2 (by simp)
        have h3b := h b3 (by simp)
        omega
      · exact toWords_lt rest (fun b hb => h b (by simp [hb])) w hmem

/-- The word stream holds one word per four bytes. -/
theorem toWords_len : ∀ (bytes : List Nat), 4 * (toWords bytes).length ≤ bytes.length
  | [] => by simp [toWords]
  | [_] => by simp [toWords]
  | [_, _] => by simp [toWords]
  | [_, _, _] => by simp [toWords]
  | _ :: _ :: _ :: _ :: rest => by
      have := toWords_len rest
      simp only [toWords, List.length_cons]
      omega

/-- A sum of list elements below a bound is below length times the bound. -/
theorem sum_le_len_mul (ws : List Nat) (n : Nat) (h : ∀ x ∈ ws, x < n) :
    ws.sum ≤ ws.length * n := by
  induction ws with
  | nil => simp
  | cons w t ih =>
    have hw := h w (by simp)
    have ht := ih (fun x hx => h x (by simp [hx]))
    simp only [List.sum_cons, List.length_cons]
    calc w + t.sum ≤ n + t.length * n := by omega
      _ = (t.length + 1) * n := by ring

/-- For buffers within the APFS block-size limit the u64 loop of the C code
and the reference accumulation agree, so the two checksum definitions agree
term by term. -/
theorem apfs_fletcher64_eq_spec (bytes : List Nat) (hb : ∀ x ∈ bytes, x < 256)
    (hlen : bytes.length ≤ 65536) : apfs_fletcher64 bytes = fletcher64_spec bytes := by
  have hwlt := toWords_lt bytes hb
  have hwlen : (toWords bytes).length ≤ 16384 := by
    have := toWords_len bytes; omega
  have hsum : (toWords bytes).sum ≤ (toWords bytes).length * 2 ^ 32 :=
    sum_le_len_mul _ _ hwlt
  have hsum' : (toWords bytes).sum ≤ 16384 * 2 ^ 32 :=
    le_trans hsum (Nat.mul_le_mul_right _ hwlen)
  have h1 : (fletcher_sums (toWords bytes) (0, 0)).1 = (toWords bytes).sum := by
    simpa using fletcher_sums_fst (toWords bytes) 0 0
  have h1lt : (fletcher_sums (toWords bytes) (0, 0)).1 < U64 := by
    rw [h1]; unfold U64; omega
  have h2le : (fletcher_sums (toWords bytes) (0, 0)).2 ≤
      (toWords bytes).length * (toWords bytes).sum := by
    have := fletcher_sums_snd_le (toWords bytes) 0 0
    simpa using this
  have h2le' : (fletcher_sums (toWords bytes) (0, 0)).2 ≤ 16384 * (16384 * 2 ^ 32) :=
    le_trans h2le (Nat.mul_le_mul hwlen hsum')
  have h2lt : (fletcher_sums (toWords bytes) (0, 0)).2 < U64 := by
    unfold U64; omega
  simp only [apfs_fletcher64, fletcher64_spec]
  rw [fletcher_loop_eq (toWords bytes) 0 0 h1lt h2lt]
  have hc1 : ((fletcher_sums (toWords bytes) (0, 0)).1 +
      (fletcher_sums (toWords bytes) (0, 0)).2) % U64 =
      (fletcher_sums (toWords bytes) (0, 0)).1 + (fletcher_sums (toWords bytes) (0, 0)).2 := by
    apply Nat.mod_eq_of_lt; unfold U64; rw [h1] at *; omega
  rw [hc1]
  have hc2 : ((fletcher_sums (toWords bytes) (0, 0)).1 +
      (0xFFFFFFFF - ((fletcher_sums (toWords bytes) (0, 0)).1 +
        (fletcher_sums (toWords bytes) (0, 0)).2) % 0xFFFFFFFF)) % U64 =
      (fletcher_sums (toWords bytes) (0, 0)).1 +
      (0xFFFFFFFF - ((fletcher_sums (toWords bytes) (0, 0)).1 +
        (fletcher_sums (toWords bytes) (0, 0)).2) % 0xFFFFFFFF) := by
    apply Nat.mod_eq_of_lt
    have hsub : 0xFFFFFFFF - ((fletcher_sums (toWords bytes) (0, 0)).1 +
        (fletcher_sums (toWords bytes) (0, 0)).2) % 0xFFFFFFFF ≤ 0xFFFFFFFF :=
      Nat.sub_le _ _
    unfold U64; rw [h1] at *; omega
  rw [hc2]

/-- C4: apfs_fletcher64 equals the reference Fletcher-64 definition (for
buffers of bytes within the APFS block-size limit of 2^16, the precondition
the C code itself states), and apfs_obj_verify_csum compares exactly that
value over bytes [8, block_size) with the stored 64-bit header checksum. -/
theorem c4_fletcher64_matches_reference (bytes : List Nat)
    (h1 : ∀ b ∈ bytes, b < 256) (h2 : bytes.length ≤ 65536) :
    apfs_fletcher64 bytes = fletcher64_spec bytes ∧
    (apfs_obj_verify_csum bytes.length bytes = true ↔
      le64_at bytes 0 = fletcher64_spec (bytes.drop 8)) := by
  constructor
  · exact apfs_fletcher64_eq_spec bytes h1 h2
  · have hdrop : (bytes.drop APFS_MAX_CKSUM_SIZE).take
        (bytes.length - APFS_MAX_CKSUM_SIZE) = bytes.drop APFS_MAX_CKSUM_SIZE := by
      apply List.take_of_length_le
      simp [APFS_MAX_CKSUM_SIZE]
    have hb' : ∀ b ∈ bytes.drop APFS_MAX_CKSUM_SIZE, b < 256 :=
      fun b hb => h1 b (List.drop_subset _ _ hb)
    have hl' : (bytes.drop APFS_MAX_CKSUM_SIZE).length ≤ 65536 := by
      simp [APFS_MAX_CKSUM_SIZE]; omega
    unfold apfs_obj_verify_csum
    rw [hdrop, apfs_fletcher64_eq_spec _ hb' hl']
    simp [APFS_MAX_CKSUM_SIZE, beq_iff_eq]

/-- C4 witness: the theorem applied to a concrete 16-byte buffer. -/
theorem c4_witness :
    (∀ b ∈ c4_bytes, b < 256) ∧ c4_bytes.length ≤ 65536 ∧
    (apfs_fletcher64 c4_bytes = fletcher64_spec c4_bytes ∧
      (apfs_obj_verify_csum c4_bytes.length c4_bytes = true ↔
        le64_at c4_bytes 0 = fletcher64_spec (c4_bytes.drop 8))) :=
  ⟨by decide, by decide, c4_fletcher64_matches_reference c4_bytes (by decide) (by decide)⟩

/-! Case analysis of apfs_extent_read, shared by the extent claims. -/

/-- Exhaustive description of one apfs_extent_read call: either a cache hit
returning the cache, a propagated catalog error, a record-size rejection, an
alignment rejection, or a successful decode that installs the new cache. -/
theorem extent_read_cases (st : ExtState) (iblock : Nat) :
    (cache_covers st.cached_extent ((iblock <<< st.blkbits) % U64) ∧
      apfs_extent_read st iblock = (.ok st.cached_extent, st.cached_extent)) ∨
    (¬ cache_covers st.cached_extent ((iblock <<< st.blkbits) % U64) ∧
      ((∃ e, st.catalog st.extent_id ((iblock <<< st.blkbits) % U64) = .error e ∧
          apfs_extent_read st iblock = (.error e, st.cached_extent)) ∨
       (∃ q, st.catalog st.extent_id ((iblock <<< st.blkbits) % U64) = .ok q ∧
         (((q.val_len ≠ sizeof_file_extent_val ∨ q.key_len ≠ sizeof_file_extent_key) ∧
            apfs_extent_read st iblock = (.error EFSCORRUPTED, st.cached_extent)) ∨
          (q.val_len = sizeof_file_extent_val ∧ q.key_len = sizeof_file_extent_key ∧
            (((q.len_and_flags &&& APFS_FILE_EXTENT_LEN_MASK) % 2 ^ st.blkbits ≠ 0 ∧
               apfs_extent_read st iblock = (.error EFSCORRUPTED, st.cached_extent)) ∨
             ((q.len_and_flags &&& APFS_FILE_EXTENT_LEN_MASK) % 2 ^ st.blkbits = 0 ∧
               apfs_extent_read st iblock =
                 (.ok (⟨q.logical_addr, q.phys_block_num,
                     q.len_and_flags &&& APFS_FILE_EXTENT_LEN_MASK⟩ : apfs_file_extent),
                  (⟨q.logical_addr, q.phys_block_num,
                     q.len_and_flags &&& APFS_FILE_EXTENT_LEN_MASK⟩ : apfs_file_extent))))))))) := by
  simp only [apfs_extent_read]
  split
  next h => exact Or.inl ⟨h, rfl⟩
  next h =>
    refine Or.inr ⟨h, ?_⟩
    split
    next e heq => exact Or.inl ⟨e, heq, rfl⟩
    next q heq =>
      refine Or.inr ⟨q, heq, ?_⟩
      split
      next hsz =>
        refine Or.inl ⟨?_, rfl⟩
        simpa [Bool.or_eq_true, bne_iff_ne] using hsz
      next hsz =>
        have hsz' : q.val_len = sizeof_file_extent_val ∧ q.key_len = sizeof_file_extent_key := by
          simpa [Bool.or_eq_true, bne_iff_ne, not_or] using hsz
        refine Or.inr ⟨hsz'.1, hsz'.2, ?_⟩
        split
        next hal =>
          refine Or.inl ⟨?_, rfl⟩
          rw [← Nat.and_pow_two_sub_one_eq_mod]
          simpa [bne_iff_ne] using hal
        next hal =>
          refine Or.inr ⟨?_, rfl⟩
          rw [← Nat.and_pow_two_sub_one_eq_mod]
          simpa [bne_iff_ne] using hal

/-- C1 counterexample: apfs_get_block with create (want_write) = true on an
inode whose extent covers the block succeeds and returns a physical mapping;
it does not fail with -EROFS. -/
theorem c1_counterexample :
    (apfs_get_block c1_state 1 4096 true).1 = .ok ⟨4096, some 501⟩ ∧
    (apfs_get_block c1_state 1 4096 true).1 ≠ .error EROFS := by
  constructor
  · decide
  · decide

/-- C1 amended: apfs_get_block never inspects the create (want_write) flag;
its behaviour with create = true is identical to create = false.  Write
rejection happens at mount time, where the superblock is forced read-only,
not in the block-mapping path. -/
theorem c1_create_flag_ignored (st : ExtState) (iblock b_size : Nat) :
    apfs_get_block st iblock b_size true = apfs_get_block st iblock b_size false := rfl

/-- C2 counterexample: a catalog record whose decoded length is zero (hence
not a positive multiple of the block size) is not rejected: resolution
returns it successfully instead of failing with -EFSCORRUPTED. -/
theorem c2_counterexample :
    (apfs_extent_read c2_state 0).1 = .ok ⟨0, 123, 0⟩ ∧
    (apfs_extent_read c2_state 0).1 ≠ .error EFSCORRUPTED := by
  constructor
  · decide
  · decide

/-- C2 amended: every extent returned by apfs_extent_read has a length that
is a multiple of the block size (assuming the cached extent maintains that
invariant, which the initial empty cache and every install do), and a fresh
record whose decoded length is not a multiple of the block size makes the
resolution fail with -EFSCORRUPTED; positivity of the length, however, is
not checked. -/
theorem c2_extent_len_aligned (st : ExtState) (iblock : Nat)
    (hcache : st.cached_extent.len % 2 ^ st.blkbits = 0) :
    (∀ E, (apfs_extent_read st iblock).1 = .ok E → E.len % 2 ^ st.blkbits = 0) ∧
    (∀ q, ¬ cache_covers st.cached_extent ((iblock <<< st.blkbits) % U64) →
      st.catalog st.extent_id ((iblock <<< st.blkbits) % U64) = .ok q →
      q.val_len = sizeof_file_extent_val → q.key_len = sizeof_file_extent_key →
      (q.len_and_flags &&& APFS_FILE_EXTENT_LEN_MASK) % 2 ^ st.blkbits ≠ 0 →
      (apfs_extent_read st iblock).1 = .error EFSCORRUPTED) := by
  constructor
  · intro E hok
    rcases extent_read_cases st iblock with ⟨_, heq⟩ | ⟨_, hrest⟩
    · rw [heq] at hok
      have hE := Except.ok.inj hok
      rw [← hE]
      exact hcache
    · rcases hrest with ⟨e, _, heq⟩ | ⟨q, _, hcases⟩
      · rw [heq] at hok; simp at hok
      · rcases hcases with ⟨_, heq⟩ | ⟨_, _, ⟨_, heq⟩ | ⟨hal, heq⟩⟩
        · rw [heq] at hok; simp at hok
        · rw [heq] at hok; simp at hok
        · rw [heq] at hok
          have hE := Except.ok.inj hok
          rw [← hE]
          exact hal
  · intro q hnc hcq hv hk hal
    rcases extent_read_cases st iblock with ⟨hc, _⟩ | ⟨_, hrest⟩
    · exact absurd hc hnc
    · rcases hrest with ⟨e, hce, _⟩ | ⟨q', hcq', hcases⟩
      · rw [hcq] at hce; simp at hce
      · have hqq : q = q' := by rw [hcq] at hcq'; exact Except.ok.inj hcq'
        subst hqq
        rcases hcases with ⟨_, heq⟩ | ⟨_, _, ⟨_, heq⟩ | ⟨hal0, _⟩⟩
        · rw [heq]
        · rw [heq]
        · exact absurd hal0 hal

/-- C2 witness: the amended theorem applied to the zero-length record state,
whose cache is empty and therefore aligned. -/
theorem c2_witness :
    c2_state.cached_extent.len % 2 ^ c2_state.blkbits = 0 ∧
    (apfs_extent_read c2_state 0).1 = .ok ⟨0, 123, 0⟩ ∧
    (⟨0, 123, 0⟩ : apfs_file_extent).len % 2 ^ c2_state.blkbits = 0 :=
  ⟨by decide, by decide,
    (c2_extent_len_aligned c2_state 0 (by decide)).1 ⟨0, 123, 0⟩ (by decide)⟩

/-- C5: whenever apfs_extent_read returns an extent, that extent covers the
requested byte address, both on a cache hit and on a fresh catalog lookup. -/
theorem c5_coverage (st : ExtState) (iblock : Nat) (E : apfs_file_extent)
    (hcat : BtreeCatSpec st.catalog)
    (hib : iblock * 2 ^ st.blkbits < U64)
    (hok : (apfs_extent_read st iblock).1 = .ok E) :
    E.logical_addr ≤ iblock * 2 ^ st.blkbits ∧
      iblock * 2 ^ st.blkbits < E.logical_addr + E.len := by
  have hsh : (iblock <<< st.blkbits) % U64 = iblock * 2 ^ st.blkbits := by
    rw [Nat.shiftLeft_eq]; exact Nat.mod_eq_of_lt hib
  rcases extent_read_cases st iblock with ⟨hc, heq⟩ | ⟨_, hrest⟩
  · rw [heq] at hok
    have hE := Except.ok.inj hok
    rw [← hE]
    rcases hc with ⟨h1, h2⟩
    rw [hsh] at h1 h2
    exact ⟨h1, lt_of_lt_of_le h2 (Nat.mod_le _ _)⟩
  · rcases hrest with ⟨e, _, heq⟩ | ⟨q, hcq, hcases⟩
    · rw [heq] at hok; simp at hok
    · rcases hcases with ⟨_, heq⟩ | ⟨_, _, ⟨_, heq⟩ | ⟨_, heq⟩⟩
      · rw [heq] at hok; simp at hok
      · rw [heq] at hok; simp at hok
      · rw [heq] at hok
        have hE := Except.ok.inj hok
        rw [← hE]
        have hq := hcat st.extent_id _ q hcq
        rw [hsh] at hq
        exact hq

/-- C5 helper: the concrete catalog of c5_state satisfies the spec-modelled
acceptance condition. -/
theorem c5_cat_spec : BtreeCatSpec c5_state.catalog := by
  intro eid a q h
  simp only [c5_state] at h
  split at h
  next ha =>
    have hq := Except.ok.inj h
    rw [← hq]
    refine ⟨Nat.zero_le _, ?_⟩
    have : (8192 : Nat) &&& APFS_FILE_EXTENT_LEN_MASK = 8192 := by decide
    simpa [this] using ha
  next => simp at h

/-- C5 witness: the coverage theorem applied to c5_state at block 1. -/
theorem c5_witness :
    BtreeCatSpec c5_state.catalog ∧ 1 * 2 ^ c5_state.blkbits < U64 ∧
    (apfs_extent_read c5_state 1).1 = .ok ⟨0, 77, 8192⟩ ∧
    ((⟨0, 77, 8192⟩ : apfs_file_extent).logical_addr ≤ 1 * 2 ^ c5_state.blkbits ∧
      1 * 2 ^ c5_state.blkbits <
        (⟨0, 77, 8192⟩ : apfs_file_extent).logical_addr +
          (⟨0, 77, 8192⟩ : apfs_file_extent).len) :=
  ⟨c5_cat_spec, by decide, by decide,
    c5_coverage c5_state 1 ⟨0, 77, 8192⟩ c5_cat_spec (by decide) (by decide)⟩

/-- C8: after a successful resolution, the installed cache covers the
requested address, and a second identical call returns the same extent with
the cache untouched, served by the cache-hit path. -/
theorem c8_cache_idempotent (st : ExtState) (iblock : Nat) (E : apfs_file_extent)
    (hcat : BtreeCatSpec st.catalog)
    (hbound : CatRangesBounded st.catalog)
    (hok : (apfs_extent_read st iblock).1 = .ok E) :
    cache_covers (apfs_extent_read st iblock).2 ((iblock <<< st.blkbits) % U64) ∧
    apfs_extent_read { st with cached_extent := (apfs_extent_read st iblock).2 } iblock =
      (.ok E, (apfs_extent_read st iblock).2) := by
  rcases extent_read_cases st iblock with ⟨hc, heq⟩ | ⟨_, hrest⟩
  · have h2 : (apfs_extent_read st iblock).2 = st.cached_extent := by rw [heq]
    have hE : E = st.cached_extent := by
      rw [heq] at hok; exact (Except.ok.inj hok).symm
    constructor
    · rw [h2]; exact hc
    · rw [h2, hE]
      have hst : { st with cached_extent := st.cached_extent } = st := rfl
      rw [hst, heq]
  · rcases hrest with ⟨e, _, heq⟩ | ⟨q, hcq, hcases⟩
    · rw [heq] at hok; simp at hok
    · rcases hcases with ⟨_, heq⟩ | ⟨_, _, ⟨_, heq⟩ | ⟨_, heq⟩⟩
      · rw [heq] at hok; simp at hok
      · rw [heq] at hok; simp at hok
      · have h2 : (apfs_extent_read st iblock).2 =
            ⟨q.logical_addr, q.phys_block_num,
              q.len_and_flags &&& APFS_FILE_EXTENT_LEN_MASK⟩ := by rw [heq]
        have hE : E = ⟨q.logical_addr, q.phys_block_num,
            q.len_and_flags &&& APFS_FILE_EXTENT_LEN_MASK⟩ := by
          rw [heq] at hok; exact (Except.ok.inj hok).symm
        have hq := hcat st.extent_id _ q hcq
        have hb := hbound st.extent_id _ q hcq
        have hcov : cache_covers
            (⟨q.logical_addr, q.phys_block_num,
              q.len_and_flags &&& APFS_FILE_EXTENT_LEN_MASK⟩ : apfs_file_extent)
            ((iblock <<< st.blkbits) % U64) := by
          refine ⟨hq.1, ?_⟩
          have hmod : (q.logical_addr + (q.len_and_flags &&& APFS_FILE_EXTENT_LEN_MASK)) % U64 =
              q.logical_addr + (q.len_and_flags &&& APFS_FILE_EXTENT_LEN_MASK) :=
            Nat.mod_eq_of_lt hb
          show (iblock <<< st.blkbits) % U64 <
            (q.logical_addr + (q.len_and_flags &&& APFS_FILE_EXTENT_LEN_MASK)) % U64
          rw [hmod]
          exact hq.2
        constructor
        · rw [h2]; exact hcov
        · rcases extent_read_cases
              { st with cached_extent :=
                  ⟨q.logical_addr, q.phys_block_num,
                    q.len_and_flags &&& APFS_FILE_EXTENT_LEN_MASK⟩ } iblock with
            ⟨_, heq'⟩ | ⟨hnc', _⟩
          · rw [h2, hE, heq']
          · exact absurd hcov hnc'

/-- C8 helper: the concrete catalog of c8_state satisfies the spec-modelled
acceptance condition. -/
theorem c8_cat_spec : BtreeCatSpec c8_state.catalog := by
  intro eid a q h
  simp only [c8_state] at h
  split at h
  next ha =>
    have hq := Except.ok.inj h
    rw [← hq]
    refine ⟨Nat.zero_le _, ?_⟩
    have : (4096 : Nat) &&& APFS_FILE_EXTENT_LEN_MASK = 4096 := by decide
    simpa [this] using ha
  next => simp at h

/-- C8 helper: every record of the c8_state catalog has its logical range
within the u64 address space. -/
theorem c8_cat_bounded : CatRangesBounded c8_state.catalog := by
  intro eid a q h
  simp only [c8_state] at h
  split at h
  next =>
    have hq := Except.ok.inj h
    rw [← hq]
    decide
  next => simp at h

/-- C8 witness: the idempotence theorem applied to c8_state at block 0. -/
theorem c8_witness :
    BtreeCatSpec c8_state.catalog ∧ CatRangesBounded c8_state.catalog ∧
    (apfs_extent_read c8_state 0).1 = .ok ⟨0, 9, 4096⟩ ∧
    (cache_covers (apfs_extent_read c8_state 0).2 ((0 <<< c8_state.blkbits) % U64) ∧
      apfs_extent_read { c8_state with cached_extent := (apfs_extent_read c8_state 0).2 } 0 =
        (.ok ⟨0, 9, 4096⟩, (apfs_extent_read c8_state 0).2)) :=
  ⟨c8_cat_spec, c8_cat_bounded, by decide,
    c8_cache_idempotent c8_state 0 ⟨0, 9, 4096⟩ c8_cat_spec c8_cat_bounded (by decide)⟩

/-- C10: whenever apfs_extent_read fails, the cached extent is exactly what
it was before the call; the cache is only overwritten after a record passes
both the size check and the alignment check. -/
theorem c10_cache_unchanged_on_error (st : ExtState) (iblock : Nat) (e : Int)
    (herr : (apfs_extent_read st iblock).1 = .error e) :
    (apfs_extent_read st iblock).2 = st.cached_extent := by
  rcases extent_read_cases st iblock with ⟨_, heq⟩ | ⟨_, hrest⟩
  · rw [heq] at herr; simp at herr
  · rcases hrest with ⟨e', _, heq⟩ | ⟨q, _, hcases⟩
    · rw [heq]
    · rcases hcases with ⟨_, heq⟩ | ⟨_, _, ⟨_, heq⟩ | ⟨_, heq⟩⟩
      · rw [heq]
      · rw [heq]
      · rw [heq] at herr; simp at herr

/-- C10 witness: the preservation theorem applied to c10_state, whose lookup
fails with the propagated catalog error. -/
theorem c10_witness :
    (apfs_extent_read c10_state 0).1 = .error 2 ∧
    (apfs_extent_read c10_state 0).2 = c10_state.cached_extent :=
  ⟨by decide, c10_cache_unchanged_on_error c10_state 0 2 (by decide)⟩

/-- The conservative default block size passes the host's block-size check. -/
theorem sb_ok_default : sb_set_blocksize_ok APFS_NX_DEFAULT_BLOCK_SIZE = true := by decide

/-- A value with a nonzero high u32 half is at least 2^32. -/
theorem lor_ge_left_pow (c2 c1 : Nat) (h : 1 ≤ c2) : 2 ^ 32 ≤ c2 <<< 32 ||| c1 := by
  have h32 : 2 ^ 32 ≤ c2 <<< 32 := by
    rw [Nat.shiftLeft_eq]
    calc 2 ^ 32 = 1 * 2 ^ 32 := (Nat.one_mul _).symm
      _ ≤ c2 * 2 ^ 32 := Nat.mul_le_mul_right _ h
  obtain ⟨i, hi, hbit⟩ := Nat.ge_two_pow_implies_high_bit_true h32
  have hb : Nat.testBit (c2 <<< 32 ||| c1) i = true := by
    rw [Nat.testBit_lor, hbit, Bool.true_or]
  calc 2 ^ 32 ≤ 2 ^ i := Nat.pow_le_pow_right (by norm_num) hi
    _ ≤ c2 <<< 32 ||| c1 := Nat.testBit_implies_ge hb

/-- The checksum the C code computes always has a nonzero high half, because
c2 is 0xFFFFFFFF minus a remainder smaller than 0xFFFFFFFF. -/
theorem apfs_fletcher64_ge (bytes : List Nat) : 2 ^ 32 ≤ apfs_fletcher64 bytes := by
  simp only [apfs_fletcher64]
  apply lor_ge_left_pow
  have h : ((fletcher_loop (toWords bytes) (0, 0)).1 +
      (0xFFFFFFFF - ((fletcher_loop (toWords bytes) (0, 0)).1 +
        (fletcher_loop (toWords bytes) (0, 0)).2) % U64 % 0xFFFFFFFF)) % U64 % 0xFFFFFFFF
      < 0xFFFFFFFF := Nat.mod_lt _ (by norm_num)
  omega

/-- A stored checksum of 1 can never match: verification fails on any block
whose first eight bytes decode to 1. -/
theorem csum_one_fails (blocksize : Nat) (block : List Nat)
    (hstored : le64_at block 0 = 1) :
    apfs_obj_verify_csum blocksize block = false := by
  unfold apfs_obj_verify_csum
  rw [hstored, beq_eq_false_iff_ne]
  have h := apfs_fletcher64_ge
    ((block.drop APFS_MAX_CKSUM_SIZE).take (blocksize - APFS_MAX_CKSUM_SIZE))
  omega

/-- A container superblock that reads back with the default block size,
carries the NXSB magic and fails checksum verification makes
apfs_map_main_super fail with -EINVAL: every failure exit of this function
reports -EINVAL. -/
theorem map_main_super_csum_fail (d : Disk) (msb : List Nat)
    (hread : d.read_block APFS_NX_DEFAULT_BLOCK_SIZE APFS_NX_BLOCK_NUM = some msb)
    (hbs : le32_off msb 36 = APFS_NX_DEFAULT_BLOCK_SIZE)
    (hmagic : le32_off msb 32 = APFS_NX_MAGIC)
    (hcsum : apfs_obj_verify_csum APFS_NX_DEFAULT_BLOCK_SIZE msb = false) :
    apfs_map_main_super d = .error EINVAL := by
  rw [apfs_map_main_super, sb_ok_default, hread]
  simp only [hbs, bne_self_eq_false, Bool.not_false, if_true, Bool.not_true, Bool.false_eq_true,
    if_false]
  rw [hmagic]
  simp [hcsum]

/-- C3 counterexample: on an image whose container superblock has a valid
magic but a tampered checksum, the mount fails with -EINVAL, not with
-EFSCORRUPTED as the claim states. -/
theorem c3_counterexample :
    le32_off c3_block 32 = APFS_NX_MAGIC ∧
    apfs_obj_verify_csum APFS_NX_DEFAULT_BLOCK_SIZE c3_block = false ∧
    apfs_map_main_super c3_disk = .error EINVAL ∧
    apfs_map_main_super c3_disk ≠ .error EFSCORRUPTED := by
  have hcs : apfs_obj_verify_csum APFS_NX_DEFAULT_BLOCK_SIZE c3_block = false :=
    csum_one_fails APFS_NX_DEFAULT_BLOCK_SIZE c3_block (by decide)
  have h : apfs_map_main_super c3_disk = .error EINVAL :=
    map_main_super_csum_fail c3_disk c3_block rfl (by decide) (by decide) hcs
  refine ⟨by decide, hcs, h, ?_⟩
  rw [h]
  decide

/-- C3 amended: a mount whose container superblock carries a valid magic but
a checksum that does not match the Fletcher-64 of its payload fails, but
with -EINVAL, not -EFSCORRUPTED: apfs_map_main_super reports -EINVAL on
every failure, the checksum mismatch included. -/
theorem c3_csum_mismatch_einval (d : Disk) (msb : List Nat)
    (hread : d.read_block APFS_NX_DEFAULT_BLOCK_SIZE APFS_NX_BLOCK_NUM = some msb)
    (hbs : le32_off msb 36 = APFS_NX_DEFAULT_BLOCK_SIZE)
    (hmagic : le32_off msb 32 = APFS_NX_MAGIC)
    (hcsum : apfs_obj_verify_csum APFS_NX_DEFAULT_BLOCK_SIZE msb = false) :
    apfs_map_main_super d = .error EINVAL :=
  map_main_super_csum_fail d msb hread hbs hmagic hcsum

/-- C3 witness: the amended theorem applied to the tampered image. -/
theorem c3_witness :
    c3_disk.read_block APFS_NX_DEFAULT_BLOCK_SIZE APFS_NX_BLOCK_NUM = some c3_block ∧
    le32_off c3_block 36 = APFS_NX_DEFAULT_BLOCK_SIZE ∧
    le32_off c3_block 32 = APFS_NX_MAGIC ∧
    apfs_obj_verify_csum APFS_NX_DEFAULT_BLOCK_SIZE c3_block = false ∧
    apfs_map_main_super c3_disk = .error EINVAL := by
  have hcs : apfs_obj_verify_csum APFS_NX_DEFAULT_BLOCK_SIZE c3_block = false :=
    csum_one_fails APFS_NX_DEFAULT_BLOCK_SIZE c3_block (by decide)
  exact ⟨rfl, by decide, by decide, hcs,
    c3_csum_mismatch_einval c3_disk c3_block rfl (by decide) (by decide) hcs⟩

/-! Helper lemmas about byte loads and the used-block count. -/

/-- A byte read out of an in-range list is below 256. -/
theorem getD_lt (l : List Nat) (i : Nat) (h : ∀ b ∈ l, b < 256) : l.getD i 0 < 256 := by
  rw [List.getD_eq_getElem?_getD]
  cases hg : l[i]? with
  | none => simp
  | some b => simpa using h b (List.getElem?_mem hg)

/-- A 32-bit load of in-range bytes is a u32 value. -/
theorem le32_off_lt (l : List Nat) (off : Nat) (h : ∀ b ∈ l, b < 256) :
    le32_off l off < 2 ^ 32 := by
  have h0 := getD_lt l off h
  have h1 := getD_lt l (off + 1) h
  have h2 := getD_lt l (off + 2) h
  have h3 := getD_lt l (off + 3) h
  unfold le32_off
  omega

/-- A 64-bit load of in-range bytes is a u64 value. -/
theorem le64_at_lt (l : List Nat) (off : Nat) (h : ∀ b ∈ l, b < 256) :
    le64_at l off < 2 ^ 64 := by
  have h0 := le32_off_lt l off h
  have h1 := le32_off_lt l (off + 4) h
  unfold le64_at
  omega

/-- When every entry is well formed, the counting loop succeeds and totals
the per-volume allocation counts. -/
theorem count_go_ok (va : Nat → Option Nat) :
    ∀ (entries : List OmapEntry) (c : Nat), c < U64 →
    (∀ e ∈ entries, e.data_len = 16 ∧ va e.block ≠ none) →
    count_go va entries c =
      .ok ((c + (entries.map fun e => (va e.block).getD 0).sum) % U64) := by
  intro entries
  induction entries with
  | nil =>
    intro c hc _
    simp [count_go, Nat.mod_eq_of_lt hc]
  | cons e es ih =>
    intro c hc hwf
    obtain ⟨hlen, hsome⟩ := hwf e (by simp)
    cases hva : va e.block with
    | none => exact absurd hva hsome
    | some a =>
      simp only [count_go, hlen, bne_self_eq_false, Bool.false_eq_true, if_false, hva]
      rw [ih ((c + a) % U64) (Nat.mod_lt _ (by decide))
        (fun x hx => hwf x (by simp [hx]))]
      congr 1
      rw [Nat.mod_add_mod]
      simp only [List.map_cons, List.sum_cons, hva, Option.getD_some]
      congr 1
      omega

/-- A malformed entry, or an unreadable volume superblock, anywhere in the
list makes the counting loop fail with -EIO. -/
theorem count_go_err (va : Nat → Option Nat) :
    ∀ (entries : List OmapEntry) (c : Nat),
    (∃ e ∈ entries, e.data_len ≠ 16 ∨ va e.block = none) →
    count_go va entries c = .error EIO' := by
  intro entries
  induction entries with
  | nil => intro c h; simp at h
  | cons e es ih =>
    intro c h
    by_cases hlen : e.data_len = 16
    · cases hva : va e.block with
      | none => simp [count_go, hlen, hva]
      | some a =>
        have hbad : ∃ x ∈ es, x.data_len ≠ 16 ∨ va x.block = none := by
          rcases h with ⟨x, hx, hxbad⟩
          rcases List.mem_cons.mp hx with rfl | hxs
          · rcases hxbad with h1 | h2
            · exact absurd hlen h1
            · rw [hva] at h2; exact absurd h2 (by simp)
          · exact ⟨x, hxs, hxbad⟩
        simp only [count_go, hlen, bne_self_eq_false, Bool.false_eq_true, if_false, hva]
        exact ih _ hbad
    · simp [count_go, bne_iff_ne, hlen]

/-- C6: a successful statfs reports free = total - used with used the sum of
fs_alloc_count over the volumes the container omap references, available =
free, files the sum of the four per-volume object counters, name_max 255,
and the fsid halves taken from the XOR of the two u64 halves of the volume
uuid. -/
theorem c6_statfs_fields (st : SbInfo) (entries : List OmapEntry)
    (htab : st.omap_table = .ok entries)
    (hwf : ∀ e ∈ entries, e.data_len = 16 ∧ st.vol_alloc e.block ≠ none)
    (hsum : (entries.map fun e => (st.vol_alloc e.block).getD 0).sum ≤ st.nx_block_count)
    (htot : st.nx_block_count < U64)
    (hfiles : st.num_files + st.num_directories + st.num_symlinks +
      st.num_other_fsobjects < U64)
    (huuid : ∀ b ∈ st.vol_uuid, b < 256) :
    apfs_statfs st = .ok
      { f_type := APFS_SUPER_MAGIC
      , f_bsize := st.blocksize
      , f_blocks := st.nx_block_count
      , f_bfree := st.nx_block_count -
          (entries.map fun e => (st.vol_alloc e.block).getD 0).sum
      , f_bavail := st.nx_block_count -
          (entries.map fun e => (st.vol_alloc e.block).getD 0).sum
      , f_files := st.num_files + st.num_directories + st.num_symlinks +
          st.num_other_fsobjects
      , f_namelen := 255
      , f_fsid0 := (le64_at st.vol_uuid 0 ^^^ le64_at st.vol_uuid 8) % 2 ^ 32
      , f_fsid1 := (le64_at st.vol_uuid 0 ^^^ le64_at st.vol_uuid 8) / 2 ^ 32 } := by
  have hcount : apfs_count_used_blocks st =
      .ok ((entries.map fun e => (st.vol_alloc e.block).getD 0).sum) := by
    simp only [apfs_count_used_blocks, htab]
    rw [count_go_ok st.vol_alloc entries 0 (by decide) hwf]
    congr 1
    rw [Nat.zero_add]
    exact Nat.mod_eq_of_lt (lt_of_le_of_lt hsum htot)
  simp only [apfs_statfs, hcount]
  have hfb : st.nx_block_count % U64 = st.nx_block_count := Nat.mod_eq_of_lt htot
  rw [hfb]
  have hbfree : (st.nx_block_count + U64 -
      (entries.map fun e => (st.vol_alloc e.block).getD 0).sum) % U64 =
      st.nx_block_count - (entries.map fun e => (st.vol_alloc e.block).getD 0).sum := by
    have hstep : st.nx_block_count + U64 -
        (entries.map fun e => (st.vol_alloc e.block).getD 0).sum =
        U64 + (st.nx_block_count -
          (entries.map fun e => (st.vol_alloc e.block).getD 0).sum) := by omega
    rw [hstep, Nat.add_mod_left]
    exact Nat.mod_eq_of_lt (by omega)
  rw [hbfree]
  have hfi : (st.num_files + st.num_directories + st.num_symlinks +
      st.num_other_fsobjects) % U64 = st.num_files + st.num_directories +
      st.num_symlinks + st.num_other_fsobjects := Nat.mod_eq_of_lt hfiles
  rw [hfi]
  have hxor : le64_at st.vol_uuid 0 ^^^ le64_at st.vol_uuid 8 < 2 ^ 64 :=
    Nat.xor_lt_two_pow (le64_at_lt _ _ huuid) (le64_at_lt _ _ huuid)
  have hmask : (0xFFFFFFFF : Nat) = 2 ^ 32 - 1 := by norm_num
  have hf0 : (le64_at st.vol_uuid 0 ^^^ le64_at st.vol_uuid 8) &&& 0xFFFFFFFF =
      (le64_at st.vol_uuid 0 ^^^ le64_at st.vol_uuid 8) % 2 ^ 32 := by
    rw [hmask, Nat.and_pow_two_sub_one_eq_mod]
  have hf1 : ((le64_at st.vol_uuid 0 ^^^ le64_at st.vol_uuid 8) >>> 32) &&& 0xFFFFFFFF =
      (le64_at st.vol_uuid 0 ^^^ le64_at st.vol_uuid 8) / 2 ^ 32 := by
    rw [hmask, Nat.and_pow_two_sub_one_eq_mod, Nat.shiftRight_eq_div_pow]
    exact Nat.mod_eq_of_lt (Nat.div_lt_of_lt_mul (by omega))
  rw [hf0, hf1]

/-- C6 witness: the statfs theorem applied to the two-volume container of
spec scenario 6, reporting 10000 - 3500 = 6500 free blocks. -/
theorem c6_witness :
    c6_state.omap_table = .ok [⟨16, 100⟩, ⟨16, 200⟩] ∧
    (∀ e ∈ [(⟨16, 100⟩ : OmapEntry), ⟨16, 200⟩],
      e.data_len = 16 ∧ c6_state.vol_alloc e.block ≠ none) ∧
    (([(⟨16, 100⟩ : OmapEntry), ⟨16, 200⟩].map
        fun e => (c6_state.vol_alloc e.block).getD 0).sum ≤ c6_state.nx_block_count) ∧
    apfs_statfs c6_state = .ok
      { f_type := APFS_SUPER_MAGIC
      , f_bsize := c6_state.blocksize
      , f_blocks := c6_state.nx_block_count
      , f_bfree := c6_state.nx_block_count -
          (([(⟨16, 100⟩ : OmapEntry), ⟨16, 200⟩].map
            fun e => (c6_state.vol_alloc e.block).getD 0).sum)
      , f_bavail := c6_state.nx_block_count -
          (([(⟨16, 100⟩ : OmapEntry), ⟨16, 200⟩].map
            fun e => (c6_state.vol_alloc e.block).getD 0).sum)
      , f_files := c6_state.num_files + c6_state.num_directories +
          c6_state.num_symlinks + c6_state.num_other_fsobjects
      , f_namelen := 255
      , f_fsid0 := (le64_at c6_state.vol_uuid 0 ^^^ le64_at c6_state.vol_uuid 8) % 2 ^ 32
      , f_fsid1 := (le64_at c6_state.vol_uuid 0 ^^^ le64_at c6_state.vol_uuid 8) / 2 ^ 32 } :=
  ⟨rfl, by decide, by decide,
    c6_statfs_fields c6_state [⟨16, 100⟩, ⟨16, 200⟩] rfl (by decide) (by decide)
      (by decide) (by decide) (by decide)⟩

/-- C7 counterexample: an omap entry with value length 12 makes statfs fail
with -EIO, not with -EFSCORRUPTED as the claim states. -/
theorem c7_counterexample :
    apfs_statfs c7_state = .error EIO' ∧
    apfs_statfs c7_state ≠ .error EFSCORRUPTED := by
  constructor
  · decide
  · decide

/-- C7 amended: during used-block counting, an omap entry whose value length
is not 16 bytes aborts the whole statfs, with no partial total reported, but
the error returned is -EIO, not -EFSCORRUPTED. -/
theorem c7_bad_entry_eio (st : SbInfo) (entries : List OmapEntry)
    (htab : st.omap_table = .ok entries)
    (hbad : ∃ e ∈ entries, e.data_len ≠ 16) :
    apfs_statfs st = .error EIO' := by
  have hc : apfs_count_used_blocks st = .error EIO' := by
    simp only [apfs_count_used_blocks, htab]
    refine count_go_err st.vol_alloc entries 0 ?_
    rcases hbad with ⟨e, he, hne⟩
    exact ⟨e, he, Or.inl hne⟩
  simp [apfs_statfs, hc]

/-- C7 witness: the amended theorem applied to the 12-byte-entry container. -/
theorem c7_witness :
    c7_state.omap_table = .ok [⟨12, 100⟩] ∧
    (∃ e ∈ [(⟨12, 100⟩ : OmapEntry)], e.data_len ≠ 16) ∧
    apfs_statfs c7_state = .error EIO' :=
  ⟨rfl, ⟨⟨12, 100⟩, by decide, by decide⟩,
    c7_bad_entry_eio c7_state [⟨12, 100⟩] rfl ⟨⟨12, 100⟩, by decide, by decide⟩⟩

/-! Helper lemmas about the option loop. -/

/-- Unfolding: an empty head segment is skipped. -/
theorem parse_opts_cons_empty (rest : List (List Char)) (st : ParseState) :
    parse_opts_list ([] :: rest) st = parse_opts_list rest st := by
  simp [parse_opts_list]

/-- Unfolding: an unmatched head segment fails with -EINVAL. -/
theorem parse_opts_cons_err (p : List Char) (rest : List (List Char)) (st : ParseState)
    (hp : p ≠ []) (htok : match_token p = OptTok.err) :
    parse_opts_list (p :: rest) st = .error EINVAL := by
  simp [parse_opts_list, if_neg hp, htok]

/-- Unfolding: a uid= head segment checks validity, then records the
override and continues. -/
theorem parse_opts_cons_uid (p : List Char) (rest : List (List Char)) (st : ParseState)
    (v : Nat) (hp : p ≠ []) (htok : match_token p = OptTok.uid v) :
    parse_opts_list (p :: rest) st =
      if id_invalid v then .error EINVAL
      else parse_opts_list rest
        { st with s_uid := v, s_flags := st.s_flags ||| APFS_UID_OVERRIDE } := by
  simp [parse_opts_list, if_neg hp, htok]

/-- Unfolding: a gid= head segment checks validity, then records the
override and continues. -/
theorem parse_opts_cons_gid (p : List Char) (rest : List (List Char)) (st : ParseState)
    (v : Nat) (hp : p ≠ []) (htok : match_token p = OptTok.gid v) :
    parse_opts_list (p :: rest) st =
      if id_invalid v then .error EINVAL
      else parse_opts_list rest
        { st with s_gid := v, s_flags := st.s_flags ||| APFS_GID_OVERRIDE } := by
  simp [parse_opts_list, if_neg hp, htok]

/-- Unfolding: a vol= head segment sets the volume slot and continues. -/
theorem parse_opts_cons_vol (p : List Char) (rest : List (List Char)) (st : ParseState)
    (v : Nat) (hp : p ≠ []) (htok : match_token p = OptTok.vol v) :
    parse_opts_list (p :: rest) st = parse_opts_list rest { st with s_vol_nr := v } := by
  simp [parse_opts_list, if_neg hp, htok]

/-- A segment that matches no option pattern anywhere in the list makes the
loop fail with -EINVAL: every failure exit of the loop carries -EINVAL. -/
theorem parse_opts_err_of_bad :
    ∀ (l : List (List Char)) (st : ParseState),
    (∃ p ∈ l, p ≠ [] ∧ match_token p = OptTok.err) →
    parse_opts_list l st = .error EINVAL := by
  intro l
  induction l with
  | nil => intro st h; simp at h
  | cons p rest ih =>
    intro st hbad
    by_cases hp : p = []
    · subst hp
      rw [parse_opts_cons_empty]
      refine ih st ?_
      rcases hbad with ⟨q, hq, hqne, hqerr⟩
      rcases List.mem_cons.mp hq with rfl | hqs
      · exact absurd rfl hqne
      · exact ⟨q, hqs, hqne, hqerr⟩
    · have hrest : (∃ q ∈ rest, q ≠ [] ∧ match_token q = OptTok.err) ∨
          match_token p = OptTok.err := by
        rcases hbad with ⟨q, hq, hqne, hqerr⟩
        rcases List.mem_cons.mp hq with rfl | hqs
        · exact Or.inr hqerr
        · exact Or.inl ⟨q, hqs, hqne, hqerr⟩
      cases htok : match_token p with
      | err => rw [parse_opts_cons_err p rest st hp htok]
      | uid v =>
        have hr : ∃ q ∈ rest, q ≠ [] ∧ match_token q = OptTok.err := by
          rcases hrest with h | h
          · exact h
          · rw [htok] at h; exact absurd h (by simp)
        rw [parse_opts_cons_uid p rest st v hp htok]
        split
        · rfl
        · exact ih _ hr
      | gid v =>
        have hr : ∃ q ∈ rest, q ≠ [] ∧ match_token q = OptTok.err := by
          rcases hrest with h | h
          · exact h
          · rw [htok] at h; exact absurd h (by simp)
        rw [parse_opts_cons_gid p rest st v hp htok]
        split
        · rfl
        · exact ih _ hr
      | vol v =>
        have hr : ∃ q ∈ rest, q ≠ [] ∧ match_token q = OptTok.err := by
          rcases hrest with h | h
          · exact h
          · rw [htok] at h; exact absurd h (by simp)
        rw [parse_opts_cons_vol p rest st v hp htok]
        exact ih _ hr

/-- Empty segments have no effect: the loop behaves as on the filtered
list. -/
theorem parse_opts_skip_empties :
    ∀ (l : List (List Char)) (st : ParseState),
    parse_opts_list l st = parse_opts_list (l.filter fun p => !p.isEmpty) st := by
  intro l
  induction l with
  | nil => intro st; rfl
  | cons p rest ih =>
    intro st
    by_cases hp : p = []
    · subst hp
      rw [parse_opts_cons_empty]
      simpa [List.filter] using ih st
    · have hkeep : (!p.isEmpty) = true := by
        simp [List.isEmpty_iff, hp]
      have hfil : (p :: rest).filter (fun q => !q.isEmpty) =
          p :: rest.filter fun q => !q.isEmpty := by
        simp [List.filter, hkeep]
      rw [hfil]
      cases htok : match_token p with
      | err =>
        rw [parse_opts_cons_err p rest st hp htok,
          parse_opts_cons_err p (rest.filter fun q => !q.isEmpty) st hp htok]
      | uid v =>
        rw [parse_opts_cons_uid p rest st v hp htok,
          parse_opts_cons_uid p (rest.filter fun q => !q.isEmpty) st v hp htok]
        split
        · rfl
        · exact ih _
      | gid v =>
        rw [parse_opts_cons_gid p rest st v hp htok,
          parse_opts_cons_gid p (rest.filter fun q => !q.isEmpty) st v hp htok]
        split
        · rfl
        · exact ih _
      | vol v =>
        rw [parse_opts_cons_vol p rest st v hp htok,
          parse_opts_cons_vol p (rest.filter fun q => !q.isEmpty) st v hp htok]
        exact ih _

/-- A successful loop in which no segment tokenizes as vol= leaves the
volume selector where it started. -/
theorem parse_opts_vol_default :
    ∀ (l : List (List Char)) (st st' : ParseState),
    parse_opts_list l st = .ok st' →
    (∀ p ∈ l, ∀ v, match_token p ≠ OptTok.vol v) → st'.s_vol_nr = st.s_vol_nr := by
  intro l
  induction l with
  | nil =>
    intro st st' h _
    simp only [parse_opts_list] at h
    cases h
    rfl
  | cons p rest ih =>
    intro st st' h hno
    by_cases hp : p = []
    · subst hp
      rw [parse_opts_cons_empty] at h
      exact ih st st' h (fun q hq => hno q (by simp [hq]))
    · cases htok : match_token p with
      | err =>
        rw [parse_opts_cons_err p rest st hp htok] at h
        exact absurd h (by simp)
      | vol v => exact absurd htok (hno p (by simp) v)
      | uid v =>
        rw [parse_opts_cons_uid p rest st v hp htok] at h
        split at h
        · exact absurd h (by simp)
        · have := ih _ st' h (fun q hq v' => hno q (by simp [hq]) v')
          simpa using this
      | gid v =>
        rw [parse_opts_cons_gid p rest st v hp htok] at h
        split at h
        · exact absurd h (by simp)
        · have := ih _ st' h (fun q hq v' => hno q (by simp [hq]) v')
          simpa using this

/-- C9: any nonempty segment that matches no key=digits pattern (an unknown
key or a malformed integer) makes parse_options fail with -EINVAL; empty
segments between commas are skipped, the parse behaving exactly as on the
filtered segment list; and a successful parse in which no segment is a vol=
option leaves the volume selector at its default 0. -/
theorem c9_parse_options (s : List Char) :
    ((∃ p ∈ split_commas s, p ≠ [] ∧ match_token p = OptTok.err) →
        parse_options (some s) = .error EINVAL) ∧
    (parse_options (some s) =
        parse_opts_list ((split_commas s).filter fun p => !p.isEmpty)
          { s_vol_nr := 0, s_uid := 0, s_gid := 0, s_flags := 0 }) ∧
    (∀ st, parse_options (some s) = .ok st →
        (∀ p ∈ split_commas s, ∀ v, match_token p ≠ OptTok.vol v) →
        st.s_vol_nr = 0) := by
  refine ⟨?_, ?_, ?_⟩
  · intro hbad
    simp only [parse_options]
    exact parse_opts_err_of_bad (split_commas s) _ hbad
  · simp only [parse_options]
    exact parse_opts_skip_empties (split_commas s) _
  · intro st h hno
    simp only [parse_options] at h
    exact parse_opts_vol_default (split_commas s) _ st h hno

/-- C9 witness: the theorem applied to the malformed option string
vol=abc. -/
theorem c9_witness :
    (∃ p ∈ split_commas c9_chars, p ≠ [] ∧ match_token p = OptTok.err) ∧
    parse_options (some c9_chars) = .error EINVAL := by
  have hbad : ∃ p ∈ split_commas c9_chars, p ≠ [] ∧ match_token p = OptTok.err := by
    refine ⟨c9_chars, ?_, ?_, ?_⟩ <;> decide
  exact ⟨hbad, (c9_parse_options c9_chars).1 hbad⟩

end Apfs
